import Mathlib

/-
Shallow embedding of the Gemini Meet demo (src/App.tsx and src/types.ts).

The application is a single view-state container.  We embed:
  - the data model (Participant, MeetingStatus) from types.ts;
  - the broadcast-channel message schema and the `channel.onmessage`
    handler (App.tsx lines 93-120) as a pure roster-transition function;
  - the user-level operations (startMeeting, toggleMic, toggleCam,
    toggleAi, leaveMeeting) as an event-step function on the app state,
    recording the messages posted on the channel, the user-facing alerts
    raised, and the sequence of status values set;
  - the frame-streaming effect (App.tsx lines 57-77);
  - the AI audio-chunk scheduling of the live-session onmessage callback
    (App.tsx lines 277-293) over an exact rational audio clock.

Browser-platform capabilities (actual media capture, JPEG encoding, the
audio hardware, page reload) are out of scope of the specification; they
appear only as abstract inputs (an arbitrary encoder function, arbitrary
chunk clock readings and durations).
-/

namespace GeminiMeet

/-- Meeting lifecycle status, from types.ts `MeetingStatus`. -/
inductive MeetingStatus
  | idle
  | joining
  | connected
  | ended
deriving DecidableEq, Repr

/-- Roster entry, from types.ts `Participant`.  The optional browser
`MediaStream` field is modelled by its presence (`hasStream`); `lastFrame`
is the optional base64-encoded JPEG data URL.  The optional `isAI` flag
defaults to `false`, matching the truthiness tests `p.isAI` in App.tsx. -/
structure Participant where
  id : String
  name : String
  isLocal : Bool
  isAI : Bool := false
  isVideoOn : Bool
  isAudioOn : Bool
  avatarColor : String
  isSpeaking : Bool
  hasStream : Bool := false
  lastFrame : Option String := none
deriving DecidableEq, Repr

/-- Payload of an UPDATE message.  App.tsx posts either an `isAudioOn`
update (toggleMic, line 185) or an `isVideoOn` update (toggleCam,
line 194), both alongside the sender's id. -/
inductive UpdateField
  | audio (b : Bool)
  | video (b : Bool)
deriving DecidableEq, Repr

/-- Broadcast-channel message schema handled by `channel.onmessage`
(App.tsx lines 93-120). -/
inductive Msg
  | videoFrame (id frame : String)
  | join (p : Participant)
  | presence (p : Participant)
  | leave (id : String)
  | update (id : String) (f : UpdateField)
deriving DecidableEq, Repr

/-- App.tsx `getLocalParticipantData` (lines 125-133). -/
def getLocalParticipantData (localId : String) (isMicOn isCamOn : Bool) :
    Participant :=
  { id := localId
    name := "User " ++ localId.toUpper
    isLocal := false
    isVideoOn := isCamOn
    isAudioOn := isMicOn
    avatarColor := "bg-indigo-600"
    isSpeaking := false }

/-- Spread-merge of an UPDATE payload into a matching roster entry
(App.tsx line 118).  The payload's id equals the entry's id under the
guard, so the merge only replaces the carried flag. -/
def applyUpdate (p : Participant) : UpdateField → Participant
  | .audio b => { p with isAudioOn := b }
  | .video b => { p with isVideoOn := b }

/-- The `channel.onmessage` handler (App.tsx lines 93-120): given the
local id and current mic/cam flags, maps a previous roster and an inbound
message to the new roster together with the messages posted back on the
channel (the PRESENCE reply of the JOIN branch). -/
def handleMsg (localId : String) (isMicOn isCamOn : Bool)
    (prev : List Participant) : Msg → List Participant × List Msg
  | .videoFrame i frame =>
      (prev.map fun p =>
        if p.id = i then { p with lastFrame := some frame, isVideoOn := true }
        else p, [])
  | .join p =>
      if prev.any (fun q => q.id == p.id) then (prev, [])
      else (prev ++ [p],
            [.presence (getLocalParticipantData localId isMicOn isCamOn)])
  | .presence p =>
      if prev.any (fun q => q.id == p.id) then (prev, [])
      else (prev ++ [p], [])
  | .leave i => (prev.filter (fun p => p.id != i), [])
  | .update i f => (prev.map fun p => if p.id = i then applyUpdate p f else p, [])

/-- The local participant built on successful media acquisition
(App.tsx lines 150-159). -/
def localParticipant (localId : String) : Participant :=
  { id := localId
    name := "You"
    isLocal := true
    isVideoOn := true
    isAudioOn := true
    avatarColor := "bg-emerald-600"
    isSpeaking := false
    hasStream := true }

/-- The JOIN payload broadcast on successful start (App.tsx line 166):
the local participant spread with `isLocal` false, the stream dropped and
the public display name. -/
def joinPayload (localId : String) : Participant :=
  { localParticipant localId with
      isLocal := false
      hasStream := false
      name := "User " ++ localId.toUpper }

/-- The AI roster entry prepended by `toggleAi` (App.tsx lines 238-247). -/
def aiParticipant : Participant :=
  { id := "ai-bot"
    name := "Gemini AI"
    isLocal := false
    isAI := true
    isVideoOn := true
    isAudioOn := true
    avatarColor := "bg-gradient-to-br from-indigo-500 to-blue-700"
    isSpeaking := false }

/-- The view state held by the component (App.tsx lines 30-34) together
with the `localStreamRef` modelled by its presence. -/
structure AppState where
  status : MeetingStatus
  participants : List Participant
  isMicOn : Bool
  isCamOn : Bool
  isAiActive : Bool
  hasStream : Bool
deriving DecidableEq, Repr

/-- Initial component state (App.tsx lines 30-34, 45). -/
def initState : AppState :=
  { status := .idle
    participants := []
    isMicOn := true
    isCamOn := true
    isAiActive := false
    hasStream := false }

/-- App.tsx line 301: the start screen (with the Start New Meeting
button) renders exactly when the status is idle or ended; otherwise the
meeting room (with the control buttons) renders. -/
def startButtonVisible : MeetingStatus → Bool
  | .idle => true
  | .ended => true
  | _ => false

/-- The alert text of the startMeeting catch branch (App.tsx line 175). -/
def permissionDeniedAlert : String :=
  "Permission denied. Ensure camera access is allowed."

/-- User-level and message-delivery events of one app instance.
`startMeeting` carries whether `getUserMedia` succeeds. -/
inductive Ev
  | recv (m : Msg)
  | startMeeting (mediaOk : Bool)
  | toggleMic
  | toggleCam
  | toggleAi
  | leaveMeeting
deriving DecidableEq, Repr

/-- Result of one event: the new state, the messages posted on the
broadcast channel, the alerts shown to the user, and the sequence of
values passed to `setStatus` during the event. -/
structure StepOut where
  state : AppState
  posts : List Msg
  alerts : List String
  statusTrace : List MeetingStatus
deriving DecidableEq, Repr

/-- One event of an app instance.  `leaveMeeting` reloads the page
immediately after setting the status to ended (App.tsx line 203), so an
instance whose status is ended processes no further events.  Buttons fire
only from the screen that renders them: startMeeting from the start
screen (App.tsx line 310), leaveMeeting from the meeting room
(line 449).  `toggleMic`/`toggleCam` are guarded internally by the
presence of the local stream (lines 181, 190); `toggleAi` branches on
`isAiActive` (lines 230-248); message delivery runs the
`channel.onmessage` handler.

Two deliberate abstractions, each refined by a dedicated model below.
First, `startMeeting` is atomic here, which hides the window while
`getUserMedia` is pending; the status lifecycle including that window is
modelled separately by `lifecycleStep`, and the status-transition
theorems are proved there.  Second, the recv branch passes the
instance's live flags to `handleMsg`, while the subscribed onmessage
closure actually captures the flags of the render at the last status
change (effect dependency array at line 123); the captured flags are
modelled by `ConnectedFlags` and `presenceReplyOnJoin`, and they affect
only the PRESENCE reply payload, never the roster contents
(`handleMsg_roster_flags_irrelevant`). -/
def step (localId : String) (s : AppState) (ev : Ev) : StepOut :=
  if s.status = .ended then ⟨s, [], [], []⟩
  else
    match ev with
    | .recv m =>
        let r := handleMsg localId s.isMicOn s.isCamOn s.participants m
        ⟨{ s with participants := r.1 }, r.2, [], []⟩
    | .startMeeting ok =>
        if startButtonVisible s.status then
          if ok then
            ⟨{ s with
                status := .connected
                participants := [localParticipant localId]
                hasStream := true },
             [.join (joinPayload localId)], [], [.joining, .connected]⟩
          else
            ⟨{ s with status := .idle }, [], [permissionDeniedAlert],
             [.joining, .idle]⟩
        else ⟨s, [], [], []⟩
    | .toggleMic =>
        if s.hasStream then
          ⟨{ s with isMicOn := !s.isMicOn },
           [.update localId (.audio (!s.isMicOn))], [], []⟩
        else ⟨s, [], [], []⟩
    | .toggleCam =>
        if s.hasStream then
          ⟨{ s with isCamOn := !s.isCamOn },
           [.update localId (.video (!s.isCamOn))], [], []⟩
        else ⟨s, [], [], []⟩
    | .toggleAi =>
        if s.isAiActive then
          ⟨{ s with
              isAiActive := false
              participants := s.participants.filter (fun p => !p.isAI) },
           [], [], []⟩
        else
          ⟨{ s with
              isAiActive := true
              participants := aiParticipant :: s.participants },
           [], [], []⟩
    | .leaveMeeting =>
        if startButtonVisible s.status then ⟨s, [], [], []⟩
        else ⟨{ s with status := .ended }, [.leave localId], [], [.ended]⟩

/-- Final state after a sequence of events. -/
def runState (localId : String) (s : AppState) : List Ev → AppState
  | [] => s
  | ev :: evs => runState localId (step localId s ev).state evs

/-- The four-state forward chain claimed by the specification:
idle to joining, joining to connected, connected to ended. -/
def chainStepB : MeetingStatus → MeetingStatus → Bool
  | .idle, .joining => true
  | .joining, .connected => true
  | .connected, .ended => true
  | _, _ => false

/-- Side condition on inbound events used for the roster-uniqueness
invariant: peer-originated JOIN/PRESENCE payloads carry the sender's
session token, a base-36 string from `Math.random().toString(36)`
(App.tsx line 46), which never equals the literal id "ai-bot" reserved
for the AI entry. -/
def evOk : Ev → Bool
  | .recv (.join p) => p.id != "ai-bot"
  | .recv (.presence p) => p.id != "ai-bot"
  | _ => true

/-- Roster invariant: entry ids are pairwise distinct, and an entry
carrying the AI id exists only as the AI entry while the AI is active. -/
def rosterInv (s : AppState) : Prop :=
  (s.participants.map Participant.id).Nodup ∧
    ∀ p ∈ s.participants, p.id = "ai-bot" →
      p.isAI = true ∧ s.isAiActive = true

/-- Everything a closing tab broadcasts: the effect cleanup (App.tsx
line 122) only calls `channel.close()`, which posts no message.  There is
no beforeunload or unload handler in the repository. -/
def tabCloseBroadcast : List Msg := []

/-- A receiver's roster after processing a list of inbound messages
(replies it posts are not part of its own roster). -/
def recvAll (localId : String) (isMicOn isCamOn : Bool)
    (prev : List Participant) : List Msg → List Participant
  | [] => prev
  | m :: ms =>
      recvAll localId isMicOn isCamOn
        (handleMsg localId isMicOn isCamOn prev m).1 ms

/-- A concrete remote roster entry as a peer would announce it: the
PRESENCE payload of a peer with session token "b7". -/
def remoteB : Participant := getLocalParticipantData "b7" true true

/-- App.tsx line 26. -/
def FRAME_RATE : ℚ := 12

/-- App.tsx line 27: JPEG compression quality. -/
def QUALITY : ℚ := 0.4

/-- Interval of the frame-streaming timer in milliseconds
(App.tsx line 74): 1000 / FRAME_RATE. -/
def frameIntervalMs : ℚ := 1000 / FRAME_RATE

/-- Capture canvas width (App.tsx line 61). -/
def captureWidth : Nat := 320

/-- Capture canvas height (App.tsx line 62). -/
def captureHeight : Nat := 240

/-- One tick of the frame-streaming effect (App.tsx lines 57-77): the
interval exists only while the status is connected, the camera is on and
the local video element is attached; each tick draws the camera frame at
the capture resolution, encodes it as a JPEG data URL at QUALITY, and
posts it as a VIDEO_FRAME carrying the local id.  The platform encoder
(drawImage plus toDataURL) is abstracted as `encodeFrame`. -/
def frameTick (localId : String) (status : MeetingStatus)
    (isCamOn videoReady : Bool) (encodeFrame : Nat → Nat → ℚ → String) :
    List Msg :=
  if status = .connected ∧ isCamOn = true ∧ videoReady = true then
    [.videoFrame localId (encodeFrame captureWidth captureHeight QUALITY)]
  else []

/-- One AI audio chunk as handled by the live-session onmessage callback
(App.tsx lines 277-293): the audio clock reading `outCtx.currentTime`
when the chunk is scheduled, and the decoded buffer's duration. -/
structure AudioChunk where
  currentTime : ℚ
  duration : ℚ
deriving DecidableEq, Repr

/-- The scheduling loop (App.tsx lines 281-291) folded over a sequence of
chunks: `nextStartTime` is clamped up to the clock, the chunk is started
at the clamped value, and `nextStartTime` advances by the chunk's
duration.  Returns the scheduled playback interval of each chunk. -/
def scheduleStarts : ℚ → List AudioChunk → List (ℚ × ℚ)
  | _, [] => []
  | nextStartTime, c :: cs =>
      let s := max nextStartTime c.currentTime
      (s, s + c.duration) :: scheduleStarts (s + c.duration) cs

/-- The meeting lifecycle refined below the event granularity of `step`:
while `getUserMedia` (App.tsx line 144) is pending the status is joining
and App.tsx line 301 already renders the meeting room, with the leave
button live (line 449), so that window is observable.  `mediaPending`
records an in-flight getUserMedia call. -/
structure StatusState where
  status : MeetingStatus
  mediaPending : Bool
deriving DecidableEq, Repr

/-- Initial lifecycle state: status idle, no media request in flight. -/
def initStatusState : StatusState := ⟨.idle, false⟩

/-- Lifecycle events: pressing Start New Meeting (App.tsx line 310,
running startMeeting up to the getUserMedia call), resolution or
rejection of the pending getUserMedia call (the continuation at line 162
or the catch branch at line 176), and pressing the leave button
(line 449). -/
inductive LifecycleEv
  | pressStart
  | mediaOk
  | mediaFail
  | pressLeave
deriving DecidableEq, Repr

/-- One lifecycle event: the next state and the statuses set during the
event.  An instance whose status is ended reloads (line 203) and
processes nothing further; pressStart fires from the start screen and
pressLeave from the meeting room (the screen split of line 301); the
media continuations run only while a getUserMedia call is in flight. -/
def lifecycleStep (s : StatusState) (ev : LifecycleEv) :
    StatusState × List MeetingStatus :=
  if s.status = .ended then (s, [])
  else
    match ev with
    | .pressStart =>
        if startButtonVisible s.status then
          (⟨.joining, true⟩, [.joining])
        else (s, [])
    | .mediaOk =>
        if s.mediaPending then (⟨.connected, false⟩, [.connected])
        else (s, [])
    | .mediaFail =>
        if s.mediaPending then (⟨.idle, false⟩, [.idle])
        else (s, [])
    | .pressLeave =>
        if startButtonVisible s.status then (s, [])
        else (⟨.ended, s.mediaPending⟩, [.ended])

/-- Statuses set by a run of lifecycle events. -/
def lifecycleTrace (s : StatusState) : List LifecycleEv → List MeetingStatus
  | [] => []
  | ev :: evs =>
      (lifecycleStep s ev).2 ++ lifecycleTrace (lifecycleStep s ev).1 evs

/-- The chain extended by the two further transitions the code takes:
the startMeeting catch branch returns joining to idle (App.tsx
line 176), and pressing leave while the media request is still pending
moves joining directly to ended (lines 202, 449). -/
def amendedLifecycleB (a b : MeetingStatus) : Bool :=
  chainStepB a b || (a == .joining && b == .idle) ||
    (a == .joining && b == .ended)

/-- Lifecycle invariant: a media request is in flight only while the
status is joining, or after the leave that ends the instance. -/
def lifecycleInv (s : StatusState) : Prop :=
  s.mediaPending = true → s.status = .joining ∨ s.status = .ended

/-- The mic and camera flags visible to a connected instance together
with the flags captured by the subscribed onmessage closure.  The
broadcast-channel effect has dependency array containing only the status
(App.tsx line 123): the closure is installed when the status changes and
captures the `getLocalParticipantData` of that render, hence the flags
as of the last status change.  A toggle does not change the status, so
it re-renders without re-running the effect, and the subscribed closure
keeps replying with the captured flags. -/
structure ConnectedFlags where
  isMicOn : Bool
  isCamOn : Bool
  micAtSubscribe : Bool
  camAtSubscribe : Bool
deriving DecidableEq, Repr

/-- Flags right after a successful start: both toggles are on (App.tsx
lines 32-33, unchanged through startMeeting), and the render at the
status change to connected re-ran the effect and captured them. -/
def connectedAfterStart : ConnectedFlags :=
  { isMicOn := true, isCamOn := true,
    micAtSubscribe := true, camAtSubscribe := true }

/-- toggleMic while connected: flips the live flag (App.tsx line 184)
but leaves the subscribed closure untouched, since the effect
dependencies do not include the flags. -/
def flagsToggleMic (f : ConnectedFlags) : ConnectedFlags :=
  { f with isMicOn := !f.isMicOn }

/-- toggleCam while connected (App.tsx line 193): flips the live camera
flag, subscribed closure untouched. -/
def flagsToggleCam (f : ConnectedFlags) : ConnectedFlags :=
  { f with isCamOn := !f.isCamOn }

/-- The PRESENCE reply posted by the subscribed onmessage closure on a
JOIN: the handler applied to the flags captured at subscription time. -/
def presenceReplyOnJoin (localId : String) (f : ConnectedFlags)
    (prev : List Participant) (p : Participant) : List Msg :=
  (handleMsg localId f.micAtSubscribe f.camAtSubscribe prev (.join p)).2

/-- Every interval produced by the scheduling fold starts no earlier than
the incoming `nextStartTime`, is well-formed when durations are
nonnegative, and the intervals are pairwise ordered end-before-start. -/
theorem scheduleStarts_spec (cs : List AudioChunk) :
    ∀ n : ℚ, (∀ c ∈ cs, 0 ≤ c.duration) →
      (scheduleStarts n cs).Pairwise (fun a b => a.2 ≤ b.1) ∧
      ∀ iv ∈ scheduleStarts n cs, n ≤ iv.1 ∧ iv.1 ≤ iv.2 := by
  induction cs with
  | nil => intro n _; simp [scheduleStarts]
  | cons c cs ih =>
      intro n h
      have hc : 0 ≤ c.duration := h c (List.mem_cons_self c cs)
      have htl : ∀ x ∈ cs, 0 ≤ x.duration := fun x hx => h x (List.mem_cons_of_mem c hx)
      obtain ⟨hpw, hbd⟩ := ih (max n c.currentTime + c.duration) htl
      constructor
      · refine List.Pairwise.cons ?_ hpw
        intro iv hiv
        exact (hbd iv hiv).1
      · intro iv hiv
        rcases List.mem_cons.mp hiv with hgl | hmem
        · subst hgl
          exact ⟨le_max_left n c.currentTime, le_add_of_nonneg_right hc⟩
        · have hi := hbd iv hmem
          exact ⟨le_trans (le_trans (le_max_left n c.currentTime)
            (le_add_of_nonneg_right hc)) hi.1, hi.2⟩

/-- Each scheduled interval starts no earlier than its chunk's clock
reading and ends exactly the chunk's duration later. -/
theorem scheduleStarts_clock (cs : List AudioChunk) :
    ∀ n : ℚ,
      List.Forall₂ (fun (iv : ℚ × ℚ) (c : AudioChunk) =>
          c.currentTime ≤ iv.1 ∧ iv.2 = iv.1 + c.duration)
        (scheduleStarts n cs) cs := by
  induction cs with
  | nil => intro n; simp [scheduleStarts]
  | cons c cs ih =>
      intro n
      refine List.Forall₂.cons ⟨le_max_right n c.currentTime, rfl⟩ (ih _)

/-- Half-open rational intervals with the first ending before the second
starts are disjoint. -/
theorem ico_disjoint_of_le {a b c d : ℚ} (h : b ≤ c) :
    Disjoint (Set.Ico a b) (Set.Ico c d) := by
  rw [Set.disjoint_left]
  rintro x ⟨_, hxb⟩ ⟨hcx, _⟩
  exact absurd (hxb.trans_le (h.trans hcx)) (lt_irrefl x)

/-- C1: audio chunks queued for AI playback never overlap.  Starting from
the initial `nextStartTimeRef` value 0, every chunk handled by the
session's onmessage callback is scheduled at the later of the audio
clock's current reading and the previous chunk's start plus its duration
(first conjunct, together with pairwise end-before-start ordering), so
the scheduled playback intervals of any two chunks are disjoint (last
conjunct).  Durations of decoded audio buffers are nonnegative. -/
theorem c1_audio_scheduling_disjoint (cs : List AudioChunk)
    (h : ∀ c ∈ cs, 0 ≤ c.duration) :
    List.Forall₂ (fun (iv : ℚ × ℚ) (c : AudioChunk) =>
        c.currentTime ≤ iv.1 ∧ iv.2 = iv.1 + c.duration)
      (scheduleStarts 0 cs) cs ∧
    (scheduleStarts 0 cs).Pairwise (fun a b => a.2 ≤ b.1) ∧
    (scheduleStarts 0 cs).Pairwise
      (fun a b => Disjoint (Set.Ico a.1 a.2) (Set.Ico b.1 b.2)) := by
  obtain ⟨hpw, _⟩ := scheduleStarts_spec cs 0 h
  exact ⟨scheduleStarts_clock cs 0, hpw,
    hpw.imp fun hab => ico_disjoint_of_le hab⟩

/-- Concrete instantiation of the audio-scheduling theorem: two chunks of
durations 1 and 2 with clock readings 0 and 1/2. -/
theorem c1_audio_scheduling_disjoint_witness :
    (∀ c ∈ [AudioChunk.mk 0 1, AudioChunk.mk (1/2) 2], 0 ≤ c.duration) ∧
    (List.Forall₂ (fun (iv : ℚ × ℚ) (c : AudioChunk) =>
        c.currentTime ≤ iv.1 ∧ iv.2 = iv.1 + c.duration)
      (scheduleStarts 0 [AudioChunk.mk 0 1, AudioChunk.mk (1/2) 2])
      [AudioChunk.mk 0 1, AudioChunk.mk (1/2) 2] ∧
    (scheduleStarts 0 [AudioChunk.mk 0 1, AudioChunk.mk (1/2) 2]).Pairwise
      (fun a b => a.2 ≤ b.1) ∧
    (scheduleStarts 0 [AudioChunk.mk 0 1, AudioChunk.mk (1/2) 2]).Pairwise
      (fun a b => Disjoint (Set.Ico a.1 a.2) (Set.Ico b.1 b.2))) :=
  ⟨by decide, c1_audio_scheduling_disjoint _ (by decide)⟩

/-- C7: handling a VIDEO_FRAME message for id x changes only the roster
entry whose id equals x, setting its lastFrame to the received frame and
its isVideoOn flag to true while leaving every other field and every
other entry unchanged; it posts nothing back, preserves the roster's
length, and leaves the roster unchanged when no entry has id x. -/
theorem c7_video_frame_effect (localId : String) (mic cam : Bool)
    (x frame : String) (prev : List Participant) :
    (handleMsg localId mic cam prev (.videoFrame x frame)).1.length
        = prev.length ∧
    (handleMsg localId mic cam prev (.videoFrame x frame)).2 = [] ∧
    (∀ i (h1 : i < prev.length)
        (h2 : i < (handleMsg localId mic cam prev (.videoFrame x frame)).1.length),
      (handleMsg localId mic cam prev (.videoFrame x frame)).1.get ⟨i, h2⟩ =
        if (prev.get ⟨i, h1⟩).id = x
        then { prev.get ⟨i, h1⟩ with lastFrame := some frame, isVideoOn := true }
        else prev.get ⟨i, h1⟩) ∧
    ((∀ p ∈ prev, p.id ≠ x) →
      (handleMsg localId mic cam prev (.videoFrame x frame)).1 = prev) := by
  refine ⟨by simp [handleMsg], rfl, ?_, ?_⟩
  · intro i h1 h2
    simp [handleMsg]
  · intro hno
    simp only [handleMsg]
    conv_rhs => rw [← List.map_id prev]
    refine List.map_congr_left ?_
    intro p hp
    simp [hno p hp]

/-- Concrete instantiation of the VIDEO_FRAME theorem: a frame for an
absent id leaves the roster unchanged. -/
theorem c7_video_frame_effect_witness :
    (handleMsg "u1" true true [remoteB] (.videoFrame "zz" "img")).1
      = [remoteB] :=
  (c7_video_frame_effect "u1" true true "zz" "img" [remoteB]).2.2.2 (by decide)

/-- The roster produced by the onmessage handler never depends on the
mic and camera flags it closes over: those flags only shape the PRESENCE
reply payload of the JOIN branch. -/
theorem handleMsg_roster_flags_irrelevant (localId : String)
    (mic1 cam1 mic2 cam2 : Bool) (prev : List Participant) (m : Msg) :
    (handleMsg localId mic1 cam1 prev m).1
      = (handleMsg localId mic2 cam2 prev m).1 := by
  cases m with
  | videoFrame i frame => rfl
  | leave i => rfl
  | update i f => rfl
  | join p =>
      simp only [handleMsg]
      split
      · rfl
      · rfl
  | presence p => rfl

/-- C8 counterexample: the claim that the PRESENCE reply carries the
current mic and camera flags is false.  After toggling the microphone
off in a connected meeting the status does not change, so the channel
effect is not re-run: the live mic flag is off, yet the subscribed
closure answers a fresh JOIN with the flags captured at the connect
render, carrying isAudioOn true, different from the current flag. -/
theorem c8_stale_flags_counterexample :
    (flagsToggleMic connectedAfterStart).isMicOn = false ∧
    presenceReplyOnJoin "u1" (flagsToggleMic connectedAfterStart) [] remoteB
      = [.presence (getLocalParticipantData "u1" true true)] ∧
    (getLocalParticipantData "u1" true true).isAudioOn = true ∧
    (getLocalParticipantData "u1" true true).isAudioOn
      ≠ (flagsToggleMic connectedAfterStart).isMicOn := by
  exact ⟨rfl, rfl, rfl, by decide⟩

/-- C8 (amended): when a JOIN arrives whose id is not already in the
roster, the receiver posts a PRESENCE reply carrying its own participant
data — built non-local, with the mic and camera flags captured by the
subscribed onmessage closure at the last status change, which a toggle
can leave stale — and appends the joiner; when the id is already
present, the roster is unchanged and nothing is posted. -/
theorem c8_join_reply (localId : String) (f : ConnectedFlags)
    (prev : List Participant) (p : Participant) :
    ((prev.any fun q => q.id == p.id) = false →
      handleMsg localId f.micAtSubscribe f.camAtSubscribe prev (.join p)
        = (prev ++ [p],
           [.presence (getLocalParticipantData localId
              f.micAtSubscribe f.camAtSubscribe)])) ∧
    ((prev.any fun q => q.id == p.id) = true →
      handleMsg localId f.micAtSubscribe f.camAtSubscribe prev (.join p)
        = (prev, [])) ∧
    (getLocalParticipantData localId
        f.micAtSubscribe f.camAtSubscribe).isLocal = false ∧
    (getLocalParticipantData localId
        f.micAtSubscribe f.camAtSubscribe).isAudioOn = f.micAtSubscribe ∧
    (getLocalParticipantData localId
        f.micAtSubscribe f.camAtSubscribe).isVideoOn = f.camAtSubscribe := by
  refine ⟨fun h => ?_, fun h => ?_, rfl, rfl, rfl⟩
  · simp [handleMsg, h]
  · simp [handleMsg, h]

/-- Concrete instantiation of the JOIN theorem: after a mic toggle in a
connected meeting, a fresh joiner is appended to the empty roster and
the PRESENCE reply carries the subscription-time flags. -/
theorem c8_join_reply_witness :
    handleMsg "u1" true true [] (.join remoteB)
      = ([remoteB], [.presence (getLocalParticipantData "u1" true true)]) :=
  (c8_join_reply "u1" (flagsToggleMic connectedAfterStart) [] remoteB).1
    (by decide)

/-- C3 (amended): a roster entry is removed on explicit leave only.  When
a peer leaves explicitly, leaveMeeting posts a LEAVE message carrying the
peer's id and sets the status to ended, and every receiver handling that
LEAVE removes exactly the entries with that id (each removed entry had
the id, every entry with a different id survives, nothing is posted
back).  A closing tab broadcasts no message at all, so receivers do not
remove the entry on tab close. -/
theorem c3_leave_removal (localId : String) (s : AppState) (mic cam : Bool)
    (prev : List Participant) (i : String) :
    (startButtonVisible s.status = false →
      (step localId s .leaveMeeting).posts = [.leave localId] ∧
      (step localId s .leaveMeeting).state.status = .ended) ∧
    (handleMsg localId mic cam prev (.leave i)
        = (prev.filter (fun p => p.id != i), [])) ∧
    (∀ p ∈ prev.filter (fun p => p.id != i), p.id ≠ i) ∧
    (∀ p ∈ prev, p.id ≠ i → p ∈ prev.filter (fun p => p.id != i)) ∧
    tabCloseBroadcast = [] := by
  refine ⟨fun h => ?_, rfl, ?_, ?_, rfl⟩
  · have hne : s.status ≠ .ended := by
      intro he
      rw [he] at h
      exact absurd h (by decide)
    simp [step, hne, h]
  · intro p hp
    have := (List.mem_filter.mp hp).2
    exact bne_iff_ne.mp this
  · intro p hp hne
    exact List.mem_filter.mpr ⟨hp, bne_iff_ne.mpr hne⟩

/-- Concrete instantiation of the leave-removal theorem: leaving from a
connected instance posts the LEAVE message, and a receiver handling LEAVE
for id "b7" drops that entry from its roster. -/
theorem c3_leave_removal_witness :
    (step "u1" { initState with status := .connected } .leaveMeeting).posts
        = [.leave "u1"] ∧
    handleMsg "a1" true true [remoteB] (.leave "b7") = ([], []) := by
  constructor
  · exact ((c3_leave_removal "u1" { initState with status := .connected }
      true true [remoteB] "b7").1 (by decide)).1
  · rw [(c3_leave_removal "a1" { initState with status := .connected }
      true true [remoteB] "b7").2.1]
    decide

/-- C3 counterexample: the claim that a tab close triggers the same
removal at every receiver is false.  A receiver holding the entry of peer
"b7" processes everything that peer's closing tab broadcasts (nothing)
and still holds the entry; in particular its roster differs from the
roster with the entry removed. -/
theorem c3_tab_close_counterexample :
    recvAll "a1" true true [remoteB] tabCloseBroadcast = [remoteB] ∧
    remoteB.id = "b7" ∧
    recvAll "a1" true true [remoteB] tabCloseBroadcast
      ≠ [remoteB].filter (fun p => p.id != "b7") := by
  refine ⟨rfl, rfl, ?_⟩
  decide

/-- Activating the AI and then immediately deactivating it leaves the
roster's non-AI part: the prepended AI entry is itself marked AI, so the
deactivation filter drops it together with any other AI entries. -/
theorem toggleAi_roundtrip_filter (localId : String) (s : AppState)
    (h1 : s.status ≠ .ended) (h2 : s.isAiActive = false) :
    (step localId ((step localId s .toggleAi).state) .toggleAi).state.participants
      = s.participants.filter (fun p => !p.isAI) := by
  simp [step, h1, h2, aiParticipant, List.filter]

/-- C9: deactivating the AI removes exactly the roster entries marked
isAI and keeps every non-AI entry (the roster becomes its non-AI filter);
activating then immediately deactivating the AI restores the roster's
non-AI part, and restores the roster itself when it had no AI entries. -/
theorem c9_toggle_ai_roundtrip (localId : String) (s : AppState) :
    (s.status ≠ .ended → s.isAiActive = true →
      (step localId s .toggleAi).state.participants
        = s.participants.filter (fun p => !p.isAI)) ∧
    (s.status ≠ .ended → s.isAiActive = false →
      (step localId ((step localId s .toggleAi).state) .toggleAi).state.participants
        = s.participants.filter (fun p => !p.isAI)) ∧
    (s.status ≠ .ended → s.isAiActive = false →
      (∀ p ∈ s.participants, p.isAI = false) →
      (step localId ((step localId s .toggleAi).state) .toggleAi).state.participants
        = s.participants) := by
  refine ⟨fun h1 h2 => by simp [step, h1, h2],
    fun h1 h2 => toggleAi_roundtrip_filter localId s h1 h2,
    fun h1 h2 h3 => ?_⟩
  rw [toggleAi_roundtrip_filter localId s h1 h2]
  exact List.filter_eq_self.mpr fun p hp => by simp [h3 p hp]

/-- Concrete instantiation of the AI round-trip theorem: toggling the AI
on and off in a connected meeting with one remote entry restores the
roster. -/
theorem c9_toggle_ai_roundtrip_witness :
    (step "u1" ((step "u1"
        { initState with status := .connected, participants := [remoteB] }
        .toggleAi).state) .toggleAi).state.participants = [remoteB] :=
  (c9_toggle_ai_roundtrip "u1"
    { initState with status := .connected, participants := [remoteB] }).2.2
    (by decide) rfl (by decide)

/-- C10: before the local media stream has been acquired, toggleMic and
toggleCam are complete no-ops: the state (flags and roster included) is
unchanged, nothing is posted on the channel, no alert is raised and no
status is set. -/
theorem c10_toggle_noop_without_stream (localId : String) (s : AppState)
    (h : s.hasStream = false) :
    step localId s .toggleMic = ⟨s, [], [], []⟩ ∧
    step localId s .toggleCam = ⟨s, [], [], []⟩ := by
  refine ⟨?_, ?_⟩ <;> unfold step <;> split <;> simp [h]

/-- Concrete instantiation of the toggle no-op theorem at the initial
state. -/
theorem c10_toggle_noop_without_stream_witness :
    step "u1" initState .toggleMic = ⟨initState, [], [], []⟩ ∧
    step "u1" initState .toggleCam = ⟨initState, [], [], []⟩ :=
  c10_toggle_noop_without_stream "u1" initState rfl

/-- C5: failure handling is a single user-facing alert on media
permission denial.  An event raises an alert exactly when it is a failing
startMeeting fired from the idle start screen, in which case the one
permission alert is shown, the status passes through joining and returns
to idle, and the state is left exactly as it was. -/
theorem c5_failure_alert (localId : String) (s : AppState) (ev : Ev) :
    ((step localId s ev).alerts
      = if s.status = .idle ∧ ev = .startMeeting false
        then [permissionDeniedAlert] else []) ∧
    ((step localId s (.startMeeting false)).statusTrace
      = if s.status = .idle then [.joining, .idle] else []) ∧
    (step localId s (.startMeeting false)).state = s := by
  obtain ⟨st, ps, mic, cam, ai, hs⟩ := s
  refine ⟨?_, ?_, ?_⟩
  · cases st <;> cases ev <;>
      first
        | (rename_i ok; cases ok <;> simp [step, startButtonVisible])
        | simp [step, startButtonVisible, apply_ite]
  · cases st <;> simp [step, startButtonVisible]
  · cases st <;> simp [step, startButtonVisible]

/-- Gluing chains: a chain from a through t whose last element is c,
followed by a chain from c onward, forms one chain. -/
theorem chain_glue {α : Type} (R : α → α → Prop) (a c : α) (t rest : List α)
    (h1 : List.Chain' R (a :: t)) (h2 : List.Chain' R (c :: rest))
    (hl : (a :: t).getLast (List.cons_ne_nil a t) = c) :
    List.Chain' R (a :: t ++ rest) := by
  have hx : a :: t ++ rest = (a :: t) ++ rest := rfl
  rw [hx]
  refine List.Chain'.append h1 h2.tail ?_
  intro x hx2 y hy
  rw [List.getLast?_eq_getLast (a :: t) (List.cons_ne_nil a t)] at hx2
  have hxc : x = c := by
    cases hx2
    exact hl
  subst hxc
  exact (List.chain'_cons'.mp h2).1 y hy

/-- Lifecycle effect of a single event: from an invariant state, the
statuses set during the event extend the previous status by amended
transitions only, the invariant is preserved, and the last status of the
extended trace is the resulting status. -/
theorem lifecycleStep_chain (s : StatusState) (ev : LifecycleEv)
    (h : lifecycleInv s) :
    List.Chain' (fun a b => amendedLifecycleB a b = true)
      (s.status :: (lifecycleStep s ev).2) ∧
    lifecycleInv (lifecycleStep s ev).1 ∧
    (s.status :: (lifecycleStep s ev).2).getLast (List.cons_ne_nil _ _)
      = (lifecycleStep s ev).1.status := by
  obtain ⟨st, mp⟩ := s
  cases st <;> cases mp <;> cases ev <;>
    first
      | exact absurd (h rfl) (by decide)
      | simp [lifecycleStep, lifecycleInv, startButtonVisible,
          amendedLifecycleB, chainStepB]

/-- All statuses set by a run of lifecycle events from an invariant
state form a chain of amended transitions. -/
theorem lifecycleTrace_chain (evs : List LifecycleEv) :
    ∀ s : StatusState, lifecycleInv s →
      List.Chain' (fun a b => amendedLifecycleB a b = true)
        (s.status :: lifecycleTrace s evs) := by
  induction evs with
  | nil => intro s _; simp [lifecycleTrace]
  | cons ev evs ih =>
      intro s h
      obtain ⟨h1, h2, h3⟩ := lifecycleStep_chain s ev h
      simpa [lifecycleTrace] using
        chain_glue _ s.status (lifecycleStep s ev).1.status
          (lifecycleStep s ev).2 (lifecycleTrace (lifecycleStep s ev).1 evs)
          h1 (ih (lifecycleStep s ev).1 h2) h3

/-- C4 (amended): every status transition taken by a run of the program
from the initial state moves forward along the chain idle to joining to
connected to ended, except that the startMeeting catch branch on
media-acquisition failure returns joining to idle, and that pressing
leave while media acquisition is still pending (the meeting room with
its leave button already renders during status joining) moves joining
directly to ended. -/
theorem c4_status_transitions (evs : List LifecycleEv) :
    List.Chain' (fun a b => amendedLifecycleB a b = true)
      (initStatusState.status :: lifecycleTrace initStatusState evs) :=
  lifecycleTrace_chain evs initStatusState
    (by simp [lifecycleInv, initStatusState])

/-- C4 counterexample: the claim that only the three forward chain
transitions occur is false.  A failing media acquisition takes the
status from joining back to idle, and leaving while the acquisition is
pending takes joining directly to ended; either run already leaves the
claimed chain. -/
theorem c4_chain_counterexample :
    (¬ List.Chain' (fun a b => chainStepB a b = true)
      (initStatusState.status ::
        lifecycleTrace initStatusState [.pressStart, .mediaFail])) ∧
    (¬ List.Chain' (fun a b => chainStepB a b = true)
      (initStatusState.status ::
        lifecycleTrace initStatusState [.pressStart, .pressLeave])) := by
  constructor
  · intro hch
    have he : initStatusState.status ::
        lifecycleTrace initStatusState [.pressStart, .mediaFail]
        = [.idle, .joining, .idle] := rfl
    rw [he] at hch
    exact absurd (List.chain'_cons.mp (List.chain'_cons.mp hch).2).1
      (by decide)
  · intro hch
    have he : initStatusState.status ::
        lifecycleTrace initStatusState [.pressStart, .pressLeave]
        = [.idle, .joining, .ended] := rfl
    rw [he] at hch
    exact absurd (List.chain'_cons.mp (List.chain'_cons.mp hch).2).1
      (by decide)

/-- A map by a function preserving id and isAI keeps the id list and
relates every image entry to a source entry with the same id and AI
flag. -/
theorem map_id_isAI_preserving (g : Participant → Participant)
    (hg : ∀ p, (g p).id = p.id ∧ (g p).isAI = p.isAI)
    (prev : List Participant) :
    (prev.map g).map Participant.id = prev.map Participant.id ∧
    ∀ q ∈ prev.map g, ∃ p ∈ prev, q.id = p.id ∧ q.isAI = p.isAI := by
  constructor
  · rw [List.map_map]
    exact List.map_congr_left fun p _ => (hg p).1
  · intro q hq
    obtain ⟨p, hp, rfl⟩ := List.mem_map.mp hq
    exact ⟨p, hp, (hg p).1, (hg p).2⟩

/-- The onmessage handler preserves distinctness of roster ids and the
AI-id bookkeeping, provided inbound JOIN/PRESENCE payloads do not carry
the reserved AI id. -/
theorem handleMsg_rosterInv (localId : String) (mic cam active : Bool)
    (prev : List Participant) (m : Msg)
    (hm : ∀ p, (m = .join p ∨ m = .presence p) → p.id ≠ "ai-bot")
    (h1 : (prev.map Participant.id).Nodup)
    (h2 : ∀ p ∈ prev, p.id = "ai-bot" → p.isAI = true ∧ active = true) :
    ((handleMsg localId mic cam prev m).1.map Participant.id).Nodup ∧
    ∀ p ∈ (handleMsg localId mic cam prev m).1,
      p.id = "ai-bot" → p.isAI = true ∧ active = true := by
  cases m with
  | videoFrame i frame =>
      obtain ⟨hids, hmem⟩ := map_id_isAI_preserving
        (fun p => if p.id = i
          then { p with lastFrame := some frame, isVideoOn := true } else p)
        (fun p => by by_cases hp : p.id = i <;> simp [hp]) prev
      refine ⟨?_, ?_⟩
      · show ((prev.map _).map Participant.id).Nodup
        rw [hids]
        exact h1
      · intro q hq hid
        obtain ⟨p, hp, hqid, hqai⟩ := hmem q hq
        rw [hqid] at hid
        obtain ⟨ha, hb⟩ := h2 p hp hid
        exact ⟨hqai.trans ha, hb⟩
  | update i f =>
      obtain ⟨hids, hmem⟩ := map_id_isAI_preserving
        (fun p => if p.id = i then applyUpdate p f else p)
        (fun p => by
          by_cases hp : p.id = i <;> cases f <;> simp [hp, applyUpdate]) prev
      refine ⟨?_, ?_⟩
      · show ((prev.map _).map Participant.id).Nodup
        rw [hids]
        exact h1
      · intro q hq hid
        obtain ⟨p, hp, hqid, hqai⟩ := hmem q hq
        rw [hqid] at hid
        obtain ⟨ha, hb⟩ := h2 p hp hid
        exact ⟨hqai.trans ha, hb⟩
  | leave i =>
      refine ⟨?_, ?_⟩
      · exact List.Nodup.sublist
          (List.Sublist.map Participant.id (List.filter_sublist prev)) h1
      · intro p hp hid
        exact h2 p (List.mem_of_mem_filter hp) hid
  | join p =>
      by_cases hc : prev.any (fun q => q.id == p.id) = true
      · simp only [handleMsg, hc, if_true]
        exact ⟨h1, h2⟩
      · have hnot : ∀ q ∈ prev, q.id ≠ p.id := by
          intro q hq he
          exact hc (List.any_eq_true.mpr ⟨q, hq, by simp [he]⟩)
        simp only [handleMsg, hc, Bool.false_eq_true, if_false]
        refine ⟨?_, ?_⟩
        · rw [List.map_append]
          refine List.Nodup.append h1 (by simp) ?_
          intro a ha hb
          obtain ⟨q, hq, rfl⟩ := List.mem_map.mp ha
          simp only [List.map_cons, List.map_nil, List.mem_singleton] at hb
          exact hnot q hq hb
        · intro q hq hid
          rcases List.mem_append.mp hq with hold | hnew
          · exact h2 q hold hid
          · rw [List.mem_singleton.mp hnew] at hid
            exact absurd hid (hm p (Or.inl rfl))
  | presence p =>
      by_cases hc : prev.any (fun q => q.id == p.id) = true
      · simp only [handleMsg, hc, if_true]
        exact ⟨h1, h2⟩
      · have hnot : ∀ q ∈ prev, q.id ≠ p.id := by
          intro q hq he
          exact hc (List.any_eq_true.mpr ⟨q, hq, by simp [he]⟩)
        simp only [handleMsg, hc, Bool.false_eq_true, if_false]
        refine ⟨?_, ?_⟩
        · rw [List.map_append]
          refine List.Nodup.append h1 (by simp) ?_
          intro a ha hb
          obtain ⟨q, hq, rfl⟩ := List.mem_map.mp ha
          simp only [List.map_cons, List.map_nil, List.mem_singleton] at hb
          exact hnot q hq hb
        · intro q hq hid
          rcases List.mem_append.mp hq with hold | hnew
          · exact h2 q hold hid
          · rw [List.mem_singleton.mp hnew] at hid
            exact absurd hid (hm p (Or.inr rfl))

/-- One event preserves the roster invariant, provided the local session
token is not the reserved AI id and inbound JOIN/PRESENCE payloads do not
carry it. -/
theorem rosterInv_step (localId : String) (hlid : localId ≠ "ai-bot")
    (s : AppState) (ev : Ev) (hev : evOk ev = true) (h : rosterInv s) :
    rosterInv (step localId s ev).state := by
  obtain ⟨h1, h2⟩ := h
  by_cases hend : s.status = .ended
  · simp only [step, hend, if_pos rfl]
    exact ⟨h1, h2⟩
  cases ev with
  | recv m =>
      have hres := handleMsg_rosterInv localId s.isMicOn s.isCamOn
        s.isAiActive s.participants m ?_ h1 h2
      · simp only [step, hend, if_neg hend]
        exact ⟨hres.1, hres.2⟩
      · intro p hp
        rcases hp with rfl | rfl
        · simpa [evOk] using hev
        · simpa [evOk] using hev
  | startMeeting ok =>
      by_cases hv : startButtonVisible s.status = true
      · cases ok
        · simp only [step, hend, if_neg hend, hv, if_pos rfl, Bool.false_eq_true,
            if_false]
          exact ⟨h1, h2⟩
        · simp only [step, hend, if_neg hend, hv, if_pos rfl]
          refine ⟨by simp, ?_⟩
          intro p hp hid
          rw [List.mem_singleton.mp hp] at hid
          exact absurd hid hlid
      · simp only [step, hend, if_neg hend, if_neg hv]
        exact ⟨h1, h2⟩
  | toggleMic =>
      by_cases hs : s.hasStream = true
      · simp only [step, hend, if_neg hend, hs, if_true]
        exact ⟨h1, h2⟩
      · simp only [step, hend, if_neg hend, if_neg hs]
        exact ⟨h1, h2⟩
  | toggleCam =>
      by_cases hs : s.hasStream = true
      · simp only [step, hend, if_neg hend, hs, if_true]
        exact ⟨h1, h2⟩
      · simp only [step, hend, if_neg hend, if_neg hs]
        exact ⟨h1, h2⟩
  | toggleAi =>
      by_cases hai : s.isAiActive = true
      · simp only [step, hend, if_neg hend, hai, if_pos rfl]
        refine ⟨?_, ?_⟩
        · exact List.Nodup.sublist
            (List.Sublist.map Participant.id (List.filter_sublist s.participants)) h1
        · intro p hp hid
          obtain ⟨hpm, hcond⟩ := List.mem_filter.mp hp
          have := (h2 p hpm hid).1
          rw [this] at hcond
          simp at hcond
      · simp only [step, hend, if_neg hend, if_neg hai]
        refine ⟨?_, ?_⟩
        · refine List.nodup_cons.mpr ⟨?_, h1⟩
          intro hmem
          obtain ⟨q, hq, hqe⟩ := List.mem_map.mp hmem
          exact hai (h2 q hq hqe).2
        · intro p hp hid
          rcases List.mem_cons.mp hp with rfl | hold
          · exact ⟨rfl, rfl⟩
          · exact ⟨(h2 p hold hid).1, rfl⟩
  | leaveMeeting =>
      by_cases hv : startButtonVisible s.status = true
      · simp only [step, hend, if_neg hend, hv, if_true]
        exact ⟨h1, h2⟩
      · simp only [step, hend, if_neg hend, if_neg hv]
        exact ⟨h1, h2⟩

/-- The roster invariant is preserved by any run of well-formed events. -/
theorem rosterInv_run (localId : String) (hlid : localId ≠ "ai-bot")
    (evs : List Ev) :
    ∀ s : AppState, (∀ ev ∈ evs, evOk ev = true) →
      rosterInv s → rosterInv (runState localId s evs) := by
  induction evs with
  | nil => intro s _ h; exact h
  | cons ev evs ih =>
      intro s hok h
      simpa [runState] using
        ih (step localId s ev).state
          (fun e he => hok e (List.mem_cons_of_mem ev he))
          (rosterInv_step localId hlid s ev (hok ev (List.mem_cons_self ev evs)) h)

/-- C2: roster entries are unique by token.  After any sequence of
operations (message handling, starting a meeting, toggling the AI, the
toggles, leaving) from the empty roster, no two entries of the
participants list share the same id.  The hypotheses record that session
tokens are random base-36 strings and thus never the reserved AI id
"ai-bot": the local token differs from it and inbound JOIN/PRESENCE
payloads carry peer tokens differing from it. -/
theorem c2_roster_ids_unique (localId : String) (hlid : localId ≠ "ai-bot")
    (evs : List Ev) (hevs : ∀ ev ∈ evs, evOk ev = true) :
    (runState localId initState evs).participants.Pairwise
      (fun a b => a.id ≠ b.id) := by
  have h := (rosterInv_run localId hlid evs initState hevs
    ⟨by simp [initState], by simp [initState]⟩).1
  exact List.pairwise_map.mp h

/-- Concrete instantiation of the roster-uniqueness theorem: start a
meeting, activate the AI, then receive a JOIN from peer "b7". -/
theorem c2_roster_ids_unique_witness :
    ("u1" : String) ≠ "ai-bot" ∧
    (runState "u1" initState
        [.startMeeting true, .toggleAi, .recv (.join remoteB)]).participants.Pairwise
      (fun a b => a.id ≠ b.id) :=
  ⟨by decide, c2_roster_ids_unique "u1" (by decide) _ (by decide)⟩

/-- C6: while the status is connected and the local camera is on (and
the video element is attached), each tick of the streaming timer encodes
the camera frame at the 320 by 240 capture resolution with JPEG quality
0.4 and broadcasts it as a VIDEO_FRAME carrying the local session id;
when the status is not connected or the camera is off, no VIDEO_FRAME is
broadcast.  The timer fires every 1000 / FRAME_RATE milliseconds with
FRAME_RATE twelve, i.e. at 12 frames per second. -/
theorem c6_frame_streaming (localId : String)
    (encodeFrame : Nat → Nat → ℚ → String) :
    frameTick localId .connected true true encodeFrame
        = [.videoFrame localId (encodeFrame 320 240 QUALITY)] ∧
    (∀ (st : MeetingStatus) (cam vr : Bool),
      st ≠ .connected ∨ cam = false →
        frameTick localId st cam vr encodeFrame = []) ∧
    QUALITY = 2 / 5 ∧ FRAME_RATE = 12 ∧ frameIntervalMs = 250 / 3 ∧
    captureWidth = 320 ∧ captureHeight = 240 := by
  refine ⟨by simp [frameTick, captureWidth, captureHeight], ?_,
    by norm_num [QUALITY], rfl, by norm_num [frameIntervalMs, FRAME_RATE],
    rfl, rfl⟩
  intro st cam vr h
  rcases h with h | h <;> simp [frameTick, h]

/-- Concrete instantiation of the frame-streaming theorem: with the
camera off no frame is broadcast. -/
theorem c6_frame_streaming_witness :
    frameTick "u1" .connected false true (fun _ _ _ => "jpeg") = [] :=
  (c6_frame_streaming "u1" (fun _ _ _ => "jpeg")).2.1 .connected false true
    (Or.inr rfl)

end GeminiMeet
